import Mathlib

/-!
Shallow embedding of the AR-AI service's hybrid RAG core
(`app/services/rag_engine.py`, `app/services/document_processor.py`,
`app/infra/repositories/document_repository.py`,
`app/infra/db/chroma_client.py`), with theorems checking the
natural-language specification against the code.

Python floats are modelled as rationals (`ℚ`); Python lists as `List`;
dict-shaped results as structures whose fields default the way the
Python `.get(key, default)` calls do; raised exceptions as `Except`.
Wall-clock timestamps are modelled as an abstract `Nat` tick supplied by
the caller.
-/

namespace ARAI

/-- Query intents, from `app/domain/dtos/query.py` (`QueryType`). -/
inductive QueryType where
  | general
  | procedural
  | assessment
  deriving DecidableEq, Repr

/-- Metadata attached to a chunk, as used by the query path
(`metadata.get("document_id")`, `metadata.get("chunk_index")`). -/
structure ChunkMeta where
  document_id : Option String
  chunk_index : Option Nat
  deriving DecidableEq, Repr

/-- The dict returned by `ChromaClient.search_similar`, flattened:
`documents`, `metadatas`, `distances` (the `ids` field is unused by the
query path).  On the error path of `_retrieve_from_vector_store` the
Python code stores `{}`, whose `.get` calls all yield `[]`/`None`; that
state is represented by all fields empty. -/
structure SearchResults where
  documents : List String
  metadatas : List ChunkMeta
  distances : List ℚ
  deriving DecidableEq, Repr

/-- The empty dict `{}` stored on the vector-retrieval error path. -/
def SearchResults.empty : SearchResults := ⟨[], [], []⟩

/-- `vector_results` as built by `RAGEngine._retrieve_from_vector_store`:
`{"type": "vector", "results": results, "count": len(results.get("documents", []))}`. -/
structure VectorRetrieval where
  results : SearchResults
  count : Nat
  deriving DecidableEq, Repr

/-- A `(node, relationship, connected_node)` fact row from
`Neo4jClient.get_structured_facts`; any component may be `None`.
Node dictionaries are abstracted to their rendered string (`str(...)`),
and a relationship to its `type` string. -/
structure GraphFact where
  node : Option String
  relationship : Option String
  connected_node : Option String
  deriving DecidableEq, Repr

/-- `graph_results` as built by `RAGEngine._retrieve_from_knowledge_graph`:
`{"type": "graph", "results": facts, "count": len(facts)}`. -/
structure GraphRetrieval where
  results : List GraphFact
  count : Nat
  deriving DecidableEq, Repr

/-- `RAGEngine._calculate_confidence`, line for line:
base 0.3; +0.4 when `vector_results["count"] > 0`; +0.3 when
`graph_results["count"] > 0`; when the `distances` list is truthy
(non-empty), `avg = sum/len` and `bonus = max(0, (1.0 - avg) * 0.2)`;
finally `min(1.0, base)`. -/
def calculateConfidence (vres : VectorRetrieval) (gres : GraphRetrieval) : ℚ :=
  let base : ℚ := 0.3
  let base := if vres.count > 0 then base + 0.4 else base
  let base := if gres.count > 0 then base + 0.3 else base
  let base :=
    if vres.results.distances ≠ [] then
      let avg := vres.results.distances.sum / vres.results.distances.length
      base + max 0 ((1 - avg) * 0.2)
    else base
  min 1 base

/-- The confidence formula as the specification words it: 0.3, plus 0.4 if
the vector hit count is positive, plus 0.3 if the graph fact count is
positive, plus `max(0, 1 - avg(distances)) * 0.2` if the distance list is
non-empty, capped at 1.0.  Written from the spec text, for comparison with
`calculateConfidence`. -/
def specConfidence (vectorCount graphCount : Nat) (distances : List ℚ) : ℚ :=
  min 1
    (0.3
      + (if vectorCount > 0 then 0.4 else 0)
      + (if graphCount > 0 then 0.3 else 0)
      + (if distances ≠ [] then
          max 0 (1 - distances.sum / distances.length) * 0.2
        else 0))

/-- A query request (`app/domain/dtos/query.py`): question, max_results,
optional scene filter, query type. -/
structure QueryRequest where
  question : String
  max_results : Nat
  scene : Option String
  query_type : QueryType
  deriving DecidableEq, Repr

/-- One entry of the `sources` list built by `RAGEngine._prepare_sources`:
either a document-derived source or a knowledge-graph-derived source. -/
inductive Source where
  | document (document_id : Option String) (chunk_index : Option Nat)
      (relevance_score : ℚ)
  | knowledge_graph (node_info : String) (relationship : String)
      (relevance_score : ℚ)
  deriving DecidableEq, Repr

/-- The `relevance_score` field of a source entry. -/
def Source.relevance_score : Source → ℚ
  | .document _ _ r => r
  | .knowledge_graph _ _ r => r

/-- The query response built by `RAGEngine.query` (`QueryResponse` in
`app/domain/dtos/query.py`); the wall-clock `processing_time` field is not
modelled. -/
structure QueryResponse where
  answer : String
  confidence : ℚ
  sources : List Source
  query_type : QueryType
  deriving DecidableEq, Repr

/-- `RAGEngine._retrieve_from_vector_store`: on success wraps the search
results with `count = len(results.get("documents", []))`; any raised
exception is caught and replaced by `{"results": {}, "count": 0}`. -/
def retrieveFromVectorStore (search : Except Unit SearchResults) :
    VectorRetrieval :=
  match search with
  | .ok results => ⟨results, results.documents.length⟩
  | .error _ => ⟨SearchResults.empty, 0⟩

/-- `RAGEngine._retrieve_from_knowledge_graph`: when the Neo4j driver is
unavailable it returns `{"results": [], "count": 0}` without querying;
otherwise it wraps the facts, and any raised exception is caught and
replaced by the empty result. -/
def retrieveFromKnowledgeGraph (driverAvailable : Bool)
    (getFacts : Except Unit (List GraphFact)) : GraphRetrieval :=
  if driverAvailable then
    match getFacts with
    | .ok facts => ⟨facts, facts.length⟩
    | .error _ => ⟨[], 0⟩
  else ⟨[], 0⟩

/-- The vector-section header appended by `_combine_contexts`. -/
def excerptsHeader : String := "=== DOCUMENT EXCERPTS ==="

/-- The graph-section header appended by `_combine_contexts` (the Python
literal begins with a newline). -/
def knowledgeHeader : String := "\n=== STRUCTURED KNOWLEDGE ==="

/-- One vector line of `_combine_contexts`:
`f"[Document {doc_id}]: {doc}"`, where `doc_id` is
`metadatas[i].get("document_id", "unknown")` when `i < len(metadatas)`
and `"unknown"` otherwise. -/
def renderVectorLine (metadatas : List ChunkMeta) (i : Nat) (doc : String) :
    String :=
  let docId :=
    match metadatas[i]? with
    | some md => md.document_id.getD "unknown"
    | none => "unknown"
  "[Document " ++ docId ++ "]: " ++ doc

/-- One graph line of `_combine_contexts`: emitted only when both `node`
and `relationship` are truthy; `str(fact.get("connected_node", ""))`
renders a missing connected node as the Python string `"None"` (the key is
always present, set to `None` when the row had no connected node). -/
def renderFactLine (f : GraphFact) : List String :=
  match f.node, f.relationship with
  | some n, some r =>
      ["Fact: " ++ n ++ " " ++ r ++ " " ++
        (match f.connected_node with
         | some c => c
         | none => "None")]
  | _, _ => []

/-- The vector section of `_combine_contexts`: header plus one line per
document among the top 3, present only when `vector_results["count"] > 0`. -/
def vectorSection (vres : VectorRetrieval) : List String :=
  if vres.count > 0 then
    excerptsHeader ::
      (vres.results.documents.take 3).enum.map
        (fun p => renderVectorLine vres.results.metadatas p.1 p.2)
  else []

/-- The graph section of `_combine_contexts`: header plus one line per
well-formed fact among the top 3, present only when
`graph_results["count"] > 0`. -/
def graphSection (gres : GraphRetrieval) : List String :=
  if gres.count > 0 then
    knowledgeHeader :: ((gres.results.take 3).map renderFactLine).flatten
  else []

/-- The `context_parts` list built by `RAGEngine._combine_contexts`:
the vector section followed by the graph section. -/
def combineContextParts (vres : VectorRetrieval) (gres : GraphRetrieval) :
    List String :=
  vectorSection vres ++ graphSection gres

/-- `RAGEngine._combine_contexts`: the parts joined with `"\n"`. -/
def combineContexts (vres : VectorRetrieval) (gres : GraphRetrieval) :
    String :=
  String.intercalate "\n" (combineContextParts vres gres)

/-- The fixed apologetic fallback answer returned by
`RAGEngine._generate_answer` when the generation call raises. -/
def fallbackAnswer : String :=
  "I apologize, but I\x27m having trouble generating a response right now. Please try again."

/-- `RAGEngine._generate_answer`, abstracted over the outcome of the
single `llm.ainvoke` call (prompt-template selection by query type only
changes the prompt text, which no verified claim depends on): the
generated content on success, the fixed fallback string on failure. -/
def generateAnswer (llmResult : Except Unit String) : String :=
  match llmResult with
  | .ok content => content
  | .error _ => fallbackAnswer

/-- One entry of `RAGEngine._prepare_sources` for one graph fact.
`str(fact.get("node", {}))` renders a `None` node as `"None"`;
`fact.get("relationship", {}).get("type", "")` raises `AttributeError`
when the stored relationship is `None` (the key is always present), so the
graph branch is fallible. The relevance score is the fixed 0.8. -/
def prepareGraphSource (f : GraphFact) : Except Unit Source :=
  match f.relationship with
  | none => .error ()
  | some r =>
      .ok (.knowledge_graph
        (match f.node with
         | some n => n
         | none => "None") r 0.8)

/-- The `for fact in graph_results["results"]` loop of `_prepare_sources`:
one source per fact, aborting at the first fact whose relationship rendering
raises. -/
def prepareGraphSources : List GraphFact → Except Unit (List Source)
  | [] => .ok []
  | f :: fs =>
    match prepareGraphSource f with
    | .error e => .error e
    | .ok s =>
      match prepareGraphSources fs with
      | .error e => .error e
      | .ok ss => .ok (s :: ss)

/-- The vector block of `_prepare_sources`: when
`vector_results["count"] > 0`, one document source per metadata entry, with
`relevance_score = 1.0 - distances[i]` when `i < len(distances)` and `0.5`
otherwise. -/
def prepareVectorSources (vres : VectorRetrieval) : List Source :=
  if vres.count > 0 then
    vres.results.metadatas.enum.map
      (fun p =>
        .document p.2.document_id p.2.chunk_index
          (match vres.results.distances[p.1]? with
           | some d => 1 - d
           | none => 0.5))
  else []

/-- `RAGEngine._prepare_sources`: the vector block followed by the graph
block (the latter fallible and only entered when
`graph_results["count"] > 0`). -/
def prepareSources (vres : VectorRetrieval) (gres : GraphRetrieval) :
    Except Unit (List Source) :=
  if gres.count > 0 then
    match prepareGraphSources gres.results with
    | .error e => .error e
    | .ok gs => .ok (prepareVectorSources vres ++ gs)
  else .ok (prepareVectorSources vres)

/-- The awaited steps of `RAGEngine.query` in program order: the vector
search is awaited to completion, then the graph query is awaited to
completion, then contexts are fused synchronously, then the generation
call is awaited. `query` is straight-line code, so the trace is the same
for every input. -/
inductive QueryEvent where
  | vectorSearchCall
  | vectorSearchReturn
  | graphQueryCall
  | graphQueryReturn
  | fusionDone
  | generateCall
  | generateReturn
  deriving DecidableEq, Repr

/-- The event trace of one run of `RAGEngine.query`. -/
def queryEvents : List QueryEvent :=
  [.vectorSearchCall, .vectorSearchReturn, .graphQueryCall,
   .graphQueryReturn, .fusionDone, .generateCall, .generateReturn]

/-- Modelled from the spec's words (for comparison with the code's trace):
a fan-out/fan-in retrieval issues both calls before joining either result,
i.e. each call event precedes the other source's return event. -/
def fanOutFanIn (tr : List QueryEvent) : Prop :=
  tr.indexOf QueryEvent.graphQueryCall <
      tr.indexOf QueryEvent.vectorSearchReturn
    ∧ tr.indexOf QueryEvent.vectorSearchCall <
      tr.indexOf QueryEvent.graphQueryReturn

instance : DecidablePred fanOutFanIn := fun _tr =>
  inferInstanceAs (Decidable (_ ∧ _))

/-- `RAGEngine.query`, parameterised over the outcomes of the three
external calls (vector search, graph facts, generation): retrieves from
both sources (each catching its own errors), fuses contexts, generates the
answer (catching generation errors), computes confidence, and prepares
sources; the broad `except` around the body re-raises, so a
source-preparation error surfaces. Returns the event trace and the
result. -/
def queryRun (req : QueryRequest)
    (search : Except Unit SearchResults)
    (driverAvailable : Bool)
    (getFacts : Except Unit (List GraphFact))
    (llm : String → Except Unit String) :
    List QueryEvent × Except Unit QueryResponse :=
  match prepareSources (retrieveFromVectorStore search)
      (retrieveFromKnowledgeGraph driverAvailable getFacts) with
  | .error e => (queryEvents, .error e)
  | .ok sources =>
      (queryEvents,
        .ok { answer := generateAnswer (llm (combineContexts
                (retrieveFromVectorStore search)
                (retrieveFromKnowledgeGraph driverAvailable getFacts))),
              confidence := calculateConfidence (retrieveFromVectorStore search)
                (retrieveFromKnowledgeGraph driverAvailable getFacts),
              sources := sources,
              query_type := req.query_type })

/-- A concrete vector retrieval used to evaluate the theorems: one hit at
distance 2. -/
def vres0 : VectorRetrieval := ⟨⟨["c"], [⟨some "d", some 0⟩], [2]⟩, 1⟩

/-- A concrete graph retrieval used to evaluate the theorems: one fully
populated fact. -/
def gres0 : GraphRetrieval := ⟨[⟨some "n", some "r", none⟩], 1⟩

/-- The source list `_prepare_sources` builds from `vres0` and `gres0`. -/
def srcs0 : List Source :=
  [.document (some "d") (some 0) (1 - 2), .knowledge_graph "n" "r" 0.8]

/-! ### Ingestion side: document lifecycle and `process_document` -/

/-- Document statuses (`app/domain/dtos/document.py`, `DocumentStatus`). -/
inductive DocumentStatus where
  | uploading
  | processing
  | completed
  | failed
  deriving DecidableEq, Repr

/-- A document record as stored by `DocumentRepository` (fields the claims
touch: `_id` as a string key, `status`, `chunks_count`, `processed_at`,
`updated_at`; title/description/subject/tags/file fields are inert
payload and not modelled). `created` state: status UPLOADING,
`chunks_count = 0`, `processed_at = None`. -/
structure DocumentRecord where
  id : String
  status : DocumentStatus
  chunks_count : Nat
  processed_at : Option Nat
  updated_at : Nat
  deriving DecidableEq, Repr

/-- The per-chunk metadata dict built in
`DocumentProcessor.process_document` (page metadata merged with
chunk-specific fields). -/
structure ChunkMetadata where
  document_id : String
  page_number : Nat
  file_name : String
  chunk_id : String
  chunk_index : Nat
  chunk_size : Nat
  created_at : Nat
  deriving DecidableEq, Repr

/-- A chunk document as inserted into the Mongo `chunks` collection
(`chunk_docs_for_mongo` in `process_document`).  `insert_many` assigns a
fresh Mongo `_id` per insert; `chunk_id` is an ordinary field with no
unique index (`scripts/create_indexes.py` indexes only `document_id` and
`chunk_index`, non-unique). -/
structure ChunkRecord where
  chunk_id : String
  document_id : String
  content : String
  chunk_index : Nat
  metadata : ChunkMetadata
  created_at : Nat
  deriving DecidableEq, Repr

/-- The Mongo database as `DocumentRepository` sees it: the `documents`
and `chunks` collections, each an insertion-ordered list of records. -/
structure MongoDB where
  documents : List DocumentRecord
  chunks : List ChunkRecord
  deriving DecidableEq, Repr

/-- Mongo `update_one({"_id": id}, {"$set": ...})`: updates the first
matching document only. -/
def updateOne (docs : List DocumentRecord) (id : String)
    (f : DocumentRecord → DocumentRecord) : List DocumentRecord :=
  match docs with
  | [] => []
  | d :: ds => if d.id == id then f d :: ds else d :: updateOne ds id f

/-- The `$set` payload of `DocumentRepository.update_document_status`:
always sets `status` and `updated_at`; sets `processed_at` exactly when
the new status is COMPLETED; sets `chunks_count` exactly when one is
passed. -/
def applyStatusUpdate (status : DocumentStatus) (chunks_count : Option Nat)
    (now : Nat) (d : DocumentRecord) : DocumentRecord :=
  let d := { d with status := status, updated_at := now }
  let d := if status = .completed then { d with processed_at := some now } else d
  match chunks_count with
  | some c => { d with chunks_count := c }
  | none => d

/-- `DocumentRepository.update_document_status`: one `update_one` keyed on
`_id`, applying `applyStatusUpdate` — with no guard on the current status. -/
def updateDocumentStatus (db : MongoDB) (document_id : String)
    (status : DocumentStatus) (chunks_count : Option Nat) (now : Nat) :
    MongoDB :=
  { db with documents :=
      (updateOne db.documents document_id
        (applyStatusUpdate status chunks_count now)) }

/-- `DocumentRepository.get_document`: `find_one({"_id": id})`, the first
matching record. -/
def getDocument (db : MongoDB) (document_id : String) :
    Option DocumentRecord :=
  db.documents.find? (fun d => d.id == document_id)

/-- `DocumentRepository.create_chunks`: `insert_many` appends the rows (a
no-op on the empty batch). -/
def createChunks (db : MongoDB) (rows : List ChunkRecord) : MongoDB :=
  { db with chunks := db.chunks ++ rows }

/-- An entry of the ChromaDB `documents` collection as stored by
`ChromaClient.add_documents` (id, document text, metadata, embedding). -/
structure ChromaEntry where
  id : String
  document : String
  metadata : ChunkMetadata
  embedding : List ℚ
  deriving DecidableEq, Repr

/-- One page-chunk produced by the text splitter, as consumed by
`process_document`: its `page_content` plus the per-page metadata
(`page_number`, `file_name`) it inherited.  Extraction and the LangChain
splitter are external collaborators; their output is this function's
input. -/
structure SplitDoc where
  page_content : String
  page_number : Nat
  file_name : String
  deriving DecidableEq, Repr

/-- `f"{document_id}_chunk_{i}"`. -/
def chunkIdOf (document_id : String) (i : Nat) : String :=
  document_id ++ "_chunk_" ++ toString i

/-- The `chunk_ids` list built by `process_document` (one per split doc,
in order). -/
def chunkIdsOf (document_id : String) (splitDocs : List SplitDoc) :
    List String :=
  (List.range splitDocs.length).map (chunkIdOf document_id)

/-- The `chunk_contents` list built by `process_document`. -/
def chunkContentsOf (splitDocs : List SplitDoc) : List String :=
  splitDocs.map SplitDoc.page_content

/-- The metadata dict built for chunk `i` of a split doc. -/
def chunkMetadataOf (document_id : String) (now : Nat) (i : Nat)
    (d : SplitDoc) : ChunkMetadata :=
  { document_id := document_id, page_number := d.page_number,
    file_name := d.file_name, chunk_id := chunkIdOf document_id i,
    chunk_index := i, chunk_size := d.page_content.length,
    created_at := now }

/-- The `chunk_docs_for_mongo` list built by `process_document`. -/
def chunkRowsOf (document_id : String) (splitDocs : List SplitDoc)
    (now : Nat) : List ChunkRecord :=
  splitDocs.enum.map (fun p =>
    { chunk_id := chunkIdOf document_id p.1, document_id := document_id,
      content := p.2.page_content, chunk_index := p.1,
      metadata := chunkMetadataOf document_id now p.1 p.2,
      created_at := now })

/-- The entries `ChromaClient.add_documents` stores for one run:
ids/contents/metadatas zipped with the embeddings.  ChromaDB's
`collection.add` inserts entries — it is not an id-keyed upsert; its
version-dependent duplicate-id handling (skip or raise) is not modelled
because no verified claim relies on adding an id twice to the index. -/
def chromaEntriesOf (document_id : String) (splitDocs : List SplitDoc)
    (now : Nat) (embs : List (List ℚ)) : List ChromaEntry :=
  (splitDocs.enum.zip embs).map (fun p =>
    { id := chunkIdOf document_id p.1.1, document := p.1.2.page_content,
      metadata := chunkMetadataOf document_id now p.1.1 p.1.2,
      embedding := p.2 })

/-- The system state `process_document` mutates: the Mongo database and
the live ChromaDB `documents` collection. -/
structure SysState where
  db : MongoDB
  chroma : List ChromaEntry
  deriving DecidableEq, Repr

/-- The externally observable operations of one ingestion run, in
program order. -/
inductive IngestEvent where
  | statusUpdate (s : DocumentStatus)
  | chunksInsert (n : Nat)
  | embedCall (n : Nat)
  | chromaAdd (n : Nat)
  deriving DecidableEq, Repr

/-- Structural worker for `batchesOf`: the fuel bounds the number of loop
iterations and never runs out when it starts at `texts.length` (each
iteration drops at least one element since the batch size is positive). -/
def batchesOfAux (B : ℕ+) : Nat → List String → List (List String)
  | 0, _ => []
  | _, [] => []
  | fuel + 1, t :: ts =>
    (t :: ts).take B :: batchesOfAux B fuel ((t :: ts).drop B)

/-- The batch partition computed by the `while i < len(chunk_contents)`
loop: `texts[i:i+batch_size]` for `i = 0, B, 2B, ...` (the loop requires a
positive batch size to terminate; the code's callers use the default
128). -/
def batchesOf (B : ℕ+) (texts : List String) : List (List String) :=
  batchesOfAux B texts.length texts

/-- The embedding loop over the batches: one `_create_embeddings` call per
batch, sequentially, extending the accumulated vectors; the first raised
batch aborts the run (any vectors already accumulated are discarded with
the exception).  Returns the embed-call events and the outcome. -/
def runBatchesTr (embed : List String → Except Unit (List (List ℚ))) :
    List (List String) → List IngestEvent × Except Unit (List (List ℚ))
  | [] => ([], .ok [])
  | b :: bs =>
    match embed b with
    | .error e => ([.embedCall b.length], .error e)
    | .ok emb =>
      match runBatchesTr embed bs with
      | (evs, .error e) => (.embedCall b.length :: evs, .error e)
      | (evs, .ok rest) => (.embedCall b.length :: evs, .ok (emb ++ rest))

/-- `DocumentProcessor.process_document`, parameterised over the split
output and the embedding capability, state-passing over `SysState`; all
timestamps of the run are the single tick `now`.  Steps, in source order:
set status PROCESSING; fail (`ValueError`) on an empty split; build chunk
payloads; insert chunk rows into Mongo; embed in batches; add to Chroma;
set status COMPLETED with the final count.  The `except` handler sets
status FAILED and re-raises. -/
def processDocument (document_id : String) (splitDocs : List SplitDoc)
    (batchSize : ℕ+) (embed : List String → Except Unit (List (List ℚ)))
    (now : Nat) (st : SysState) :
    SysState × List IngestEvent × Except Unit Unit :=
  if splitDocs.isEmpty then
    (⟨updateDocumentStatus
        (updateDocumentStatus st.db document_id .processing none now)
        document_id .failed none now,
      st.chroma⟩,
     [.statusUpdate .processing, .statusUpdate .failed], .error ())
  else
    match runBatchesTr embed (batchesOf batchSize (chunkContentsOf splitDocs)) with
    | (batchEvs, .error e) =>
      (⟨updateDocumentStatus
          (createChunks
            (updateDocumentStatus st.db document_id .processing none now)
            (chunkRowsOf document_id splitDocs now))
          document_id .failed none now,
        st.chroma⟩,
       .statusUpdate .processing ::
         .chunksInsert (chunkRowsOf document_id splitDocs now).length ::
         (batchEvs ++ [.statusUpdate .failed]),
       .error e)
    | (batchEvs, .ok embs) =>
      (⟨updateDocumentStatus
          (createChunks
            (updateDocumentStatus st.db document_id .processing none now)
            (chunkRowsOf document_id splitDocs now))
          document_id .completed (some splitDocs.length) now,
        st.chroma ++ chromaEntriesOf document_id splitDocs now embs⟩,
       .statusUpdate .processing ::
         .chunksInsert (chunkRowsOf document_id splitDocs now).length ::
         (batchEvs ++ [.chromaAdd (chromaEntriesOf document_id splitDocs now embs).length,
                       .statusUpdate .completed]),
       .ok ())

/-- The status-update subsequence of an ingestion event trace. -/
def statusEvents (evs : List IngestEvent) : List DocumentStatus :=
  evs.filterMap (fun ev =>
    match ev with
    | .statusUpdate s => some s
    | _ => none)

/-! ### ChromaClient.connect -/

/-- The persistent ChromaDB store: named collections. -/
structure ChromaStore where
  collections : List (String × List ChromaEntry)
  deriving DecidableEq, Repr

/-- `client.delete_collection(name)`: removes the named collection; on a
missing collection it raises `ValueError`, which `connect` catches and
ignores, so the absent case is modelled as a no-op. -/
def deleteCollection (store : ChromaStore) (name : String) : ChromaStore :=
  ⟨store.collections.filter (fun c => c.1 != name)⟩

/-- `client.create_collection(name, ...)`: a fresh empty collection. -/
def createCollection (store : ChromaStore) (name : String) : ChromaStore :=
  ⟨(name, []) :: store.collections⟩

/-- `ChromaClient.connect`: always deletes the existing `"documents"`
collection (ignoring the not-found `ValueError`) and creates a new empty
one. -/
def chromaConnect (store : ChromaStore) : ChromaStore :=
  createCollection (deleteCollection store "documents") "documents"

/-- Look up a collection's entries by name. -/
def getCollection (store : ChromaStore) (name : String) :
    Option (List ChromaEntry) :=
  (store.collections.find? (fun c => c.1 == name)).map Prod.snd

/-! ### Concrete fixtures used to evaluate the theorems -/

/-- A freshly created document record (status UPLOADING). -/
def doc0 : DocumentRecord := ⟨"doc1", .uploading, 0, none, 0⟩

/-- A database holding only `doc0`. -/
def db0 : MongoDB := ⟨[doc0], []⟩

/-- A document record that has already reached COMPLETED. -/
def docDone : DocumentRecord := ⟨"doc1", .completed, 3, some 5, 5⟩

/-- A database holding only `docDone`. -/
def dbDone : MongoDB := ⟨[docDone], []⟩

/-- A one-chunk split output. -/
def splitDocs0 : List SplitDoc := [⟨"hello", 1, "f.txt"⟩]

/-- An embedding capability that returns one vector per input text. -/
def embed0 : List String → Except Unit (List (List ℚ)) :=
  fun texts => .ok (texts.map (fun _ => [0]))

/-- An embedding capability whose every batch raises. -/
def embedFail : List String → Except Unit (List (List ℚ)) :=
  fun _ => .error ()

/-- An initial system state holding the document `"d"` and empty chunk and
vector stores. -/
def st0 : SysState := ⟨⟨[⟨"d", .uploading, 0, none, 0⟩], []⟩, []⟩

/-- A concrete chunk metadata value. -/
def meta0 : ChunkMetadata := ⟨"d", 1, "f.txt", "d_chunk_0", 0, 5, 0⟩

/-- A Chroma store whose `documents` collection holds one entry. -/
def storeOne : ChromaStore := ⟨[("documents", [⟨"d_chunk_0", "hello", meta0, [0]⟩])]⟩

end ARAI

namespace ARAI

/-- `max(0, (1 - x) * 0.2)` equals `max(0, 1 - x) * 0.2`: the positive
factor 0.2 moves through the max. -/
lemma max_bonus_eq (x : ℚ) : max 0 ((1 - x) * 0.2) = max 0 (1 - x) * 0.2 := by
  rw [max_mul_of_nonneg 0 (1 - x) (by norm_num : (0:ℚ) ≤ 0.2), zero_mul]

/-- **C1.** The confidence score computed by `_calculate_confidence` equals
the spec's formula — 0.3, +0.4 on vector hits, +0.3 on graph facts,
+`max(0, 1 - avg(distances)) * 0.2` on a non-empty distance list, capped at
1.0 — and whenever the retrieval is well-formed (distance list aligned with
the hit count) and there are no vector hits, the distance-bonus branch is
skipped: the result is exactly `min 1 (0.3 + graph bonus)`, with no average
taken over an empty list. -/
theorem confidence_matches_spec (vres : VectorRetrieval) (gres : GraphRetrieval)
    (hwf : vres.results.distances.length = vres.count) :
    calculateConfidence vres gres = specConfidence vres.count gres.count vres.results.distances
      ∧ (vres.count = 0 →
          calculateConfidence vres gres =
            min 1 (0.3 + (if gres.count > 0 then 0.3 else 0))) := by
  constructor
  · unfold calculateConfidence specConfidence
    rcases Nat.eq_zero_or_pos vres.count with hv | hv <;>
      rcases Nat.eq_zero_or_pos gres.count with hg | hg <;>
      by_cases hd : vres.results.distances = [] <;>
      simp [hv, hg, hd, max_bonus_eq]
  · intro hzero
    have hd : vres.results.distances = [] := by
      have := hwf
      rw [hzero] at this
      exact List.eq_nil_of_length_eq_zero this
    unfold calculateConfidence
    by_cases hg : 0 < gres.count <;> simp [hzero, hd, hg]

/-- Witness for C1 at a concrete retrieval: one graph fact, no vector
hits, empty distance list. -/
theorem confidence_matches_spec_witness :
    calculateConfidence ⟨SearchResults.empty, 0⟩ ⟨[⟨some "n", some "r", none⟩], 1⟩ =
        specConfidence 0 1 []
      ∧ ((0 : Nat) = 0 →
          calculateConfidence ⟨SearchResults.empty, 0⟩ ⟨[⟨some "n", some "r", none⟩], 1⟩ =
            min 1 (0.3 + (if (1 : Nat) > 0 then 0.3 else 0))) :=
  confidence_matches_spec ⟨SearchResults.empty, 0⟩ ⟨[⟨some "n", some "r", none⟩], 1⟩ rfl

/-- A successful `prepareGraphSource` always yields a knowledge-graph
source with relevance score 0.8. -/
lemma prepareGraphSource_ok_shape {f : GraphFact} {s : Source}
    (h : prepareGraphSource f = .ok s) :
    ∃ n r, s = .knowledge_graph n r 0.8 := by
  unfold prepareGraphSource at h
  cases hr : f.relationship with
  | none => rw [hr] at h; exact absurd h (by simp)
  | some r =>
    rw [hr] at h
    injection h with h
    exact ⟨_, r, h.symm⟩

/-- Every source produced by the graph loop of `_prepare_sources` is a
knowledge-graph source with relevance score 0.8. -/
lemma prepareGraphSources_shape :
    ∀ {facts : List GraphFact} {gs : List Source},
      prepareGraphSources facts = .ok gs →
      ∀ s ∈ gs, ∃ n r, s = .knowledge_graph n r 0.8 := by
  intro facts
  induction facts with
  | nil =>
    intro gs h s hs
    unfold prepareGraphSources at h
    injection h with h
    subst h
    simp at hs
  | cons f fs ih =>
    intro gs h s hs
    unfold prepareGraphSources at h
    cases hf : prepareGraphSource f with
    | error e => rw [hf] at h; exact absurd h (by simp)
    | ok b =>
      rw [hf] at h
      cases hfs : prepareGraphSources fs with
      | error e => rw [hfs] at h; exact absurd h (by simp)
      | ok bs =>
        rw [hfs] at h
        injection h with h
        subst h
        rcases List.mem_cons.mp hs with rfl | hmem
        · exact prepareGraphSource_ok_shape hf
        · exact ih hfs s hmem

/-- When every fact carries a relationship, the graph loop of
`_prepare_sources` succeeds. -/
lemma prepareGraphSources_ok_of_wf {facts : List GraphFact}
    (h : ∀ f ∈ facts, f.relationship.isSome) :
    ∃ gs, prepareGraphSources facts = .ok gs := by
  induction facts with
  | nil => exact ⟨[], rfl⟩
  | cons f fs ih =>
    have hf := h f (List.mem_cons_self f fs)
    obtain ⟨gs, hgs⟩ := ih (fun g hg => h g (List.mem_cons_of_mem f hg))
    cases hr : f.relationship with
    | none => rw [hr] at hf; simp at hf
    | some r =>
      exact ⟨_, by unfold prepareGraphSources prepareGraphSource; rw [hr, hgs]⟩

/-- When every retrieved fact carries a relationship, `_prepare_sources`
succeeds. -/
lemma prepareSources_ok_of_wf (vres : VectorRetrieval) (gres : GraphRetrieval)
    (h : ∀ f ∈ gres.results, f.relationship.isSome) :
    ∃ srcs, prepareSources vres gres = .ok srcs := by
  obtain ⟨gs, hgs⟩ := prepareGraphSources_ok_of_wf h
  unfold prepareSources
  by_cases hg : gres.count > 0
  · rw [if_pos hg, hgs]; exact ⟨_, rfl⟩
  · rw [if_neg hg]; exact ⟨_, rfl⟩

/-- **C10.** In every prepared source list, each vector-derived entry at
position `i` carries `relevance_score = 1 - distances[i]` when a distance
is available at that position and `0.5` otherwise — negative whenever the
distance exceeds 1 — while every graph-derived entry carries the fixed
relevance score 0.8; in particular relevance scores are not bounded below
by 0. -/
theorem prepare_sources_relevance (vres : VectorRetrieval)
    (gres : GraphRetrieval) (srcs : List Source)
    (hok : prepareSources vres gres = .ok srcs) :
    (∀ n r q, Source.knowledge_graph n r q ∈ srcs → q = 0.8)
    ∧ (vres.count > 0 → ∀ (i : Nat) (md : ChunkMeta),
        vres.results.metadatas[i]? = some md →
        srcs[i]? = some (Source.document md.document_id md.chunk_index
          (match vres.results.distances[i]? with
           | some d => 1 - d
           | none => (0.5 : ℚ))))
    ∧ (∀ d : ℚ, 1 < d → ∀ a b, (Source.document a b (1 - d)).relevance_score < 0) := by
  have hv : ∀ (i : Nat) (md : ChunkMeta), vres.results.metadatas[i]? = some md →
      (prepareVectorSources vres)[i]? =
        (if vres.count > 0 then
          some (Source.document md.document_id md.chunk_index
            (match vres.results.distances[i]? with
             | some d => 1 - d
             | none => (0.5 : ℚ)))
          else none) := by
    intro i md hmd
    unfold prepareVectorSources
    by_cases hc : vres.count > 0
    · rw [if_pos hc, if_pos hc, List.getElem?_map, List.getElem?_enum, hmd]
      rfl
    · rw [if_neg hc, if_neg hc]; simp
  have hsplit : ∃ gs, srcs = prepareVectorSources vres ++ gs
      ∧ (∀ s ∈ gs, ∃ n r, s = Source.knowledge_graph n r 0.8) := by
    unfold prepareSources at hok
    by_cases hg : gres.count > 0
    · rw [if_pos hg] at hok
      cases hgs : prepareGraphSources gres.results with
      | error e => rw [hgs] at hok; exact absurd hok (by simp)
      | ok gs =>
        rw [hgs] at hok
        injection hok with hok
        exact ⟨gs, hok.symm, prepareGraphSources_shape hgs⟩
    · rw [if_neg hg] at hok
      injection hok with hok
      exact ⟨[], by simp [hok.symm], by simp⟩
  obtain ⟨gs, rfl, hgs⟩ := hsplit
  refine ⟨?_, ?_, ?_⟩
  · intro n r q hmem
    rcases List.mem_append.mp hmem with hmem | hmem
    · exfalso
      unfold prepareVectorSources at hmem
      by_cases hc : vres.count > 0
      · rw [if_pos hc] at hmem
        obtain ⟨p, _, hp⟩ := List.mem_map.mp hmem
        exact Source.noConfusion hp
      · rw [if_neg hc] at hmem; simp at hmem
    · obtain ⟨n', r', h⟩ := hgs _ hmem
      simp only [Source.knowledge_graph.injEq] at h
      exact h.2.2
  · intro hc i md hmd
    have hlen : i < (prepareVectorSources vres).length := by
      unfold prepareVectorSources
      rw [if_pos hc, List.length_map, List.enum_length]
      exact (List.getElem?_eq_some.mp hmd).1
    rw [List.getElem?_append, if_pos hlen, hv i md hmd, if_pos hc]
  · intro d hd a b
    show (1 : ℚ) - d < 0
    linarith

/-- Witness for C10 at a concrete retrieval: one vector hit at distance 2
(score `1 - 2 < 0`) and one graph fact (score 0.8). -/
theorem prepare_sources_relevance_witness :
    prepareSources vres0 gres0 = .ok srcs0
    ∧ ((∀ n r q, Source.knowledge_graph n r q ∈ srcs0 → q = 0.8)
      ∧ (vres0.count > 0 → ∀ (i : Nat) (md : ChunkMeta),
          vres0.results.metadatas[i]? = some md →
          srcs0[i]? = some (Source.document md.document_id md.chunk_index
            (match vres0.results.distances[i]? with
             | some d => 1 - d
             | none => (0.5 : ℚ))))
      ∧ (∀ d : ℚ, 1 < d → ∀ a b,
          (Source.document a b (1 - d)).relevance_score < 0)) :=
  ⟨by rfl, prepare_sources_relevance vres0 gres0 srcs0 (by rfl)⟩

/-- Counterexample to C5 as stated ("the overall query fails if and only
if both retrieval calls raise"): at a concrete input where BOTH the vector
search and the graph fact query raise, each error is caught inside its own
retrieval helper and replaced by an empty result, so the query succeeds. -/
theorem query_ok_though_both_raise :
    ((queryRun ⟨"q", 5, none, .general⟩ (.error ()) true (.error ())
        (fun _ => .ok "a")).snd).isOk = true := by
  rfl

/-- **C5** (amended). If a retrieval source raises or returns an empty
result, its section is omitted from the fused context (the parts list
reduces to the other source's section) and the query still succeeds;
retrieval errors never fail the query — it succeeds even when both
retrieval calls raise.  (The well-formedness hypothesis: every retrieved
graph fact carries a relationship, without which source preparation — not
retrieval — raises.) -/
theorem retrieval_graceful_degradation (req : QueryRequest)
    (search : Except Unit SearchResults) (drv : Bool)
    (getFacts : Except Unit (List GraphFact))
    (llm : String → Except Unit String)
    (hwf : ∀ f ∈ (retrieveFromKnowledgeGraph drv getFacts).results,
        f.relationship.isSome) :
    ((queryRun req search drv getFacts llm).snd).isOk = true
    ∧ (∀ e, search = .error e → (retrieveFromVectorStore search).count = 0)
    ∧ (∀ e, getFacts = .error e →
        (retrieveFromKnowledgeGraph drv getFacts).count = 0)
    ∧ ((retrieveFromVectorStore search).count = 0 →
        combineContextParts (retrieveFromVectorStore search)
            (retrieveFromKnowledgeGraph drv getFacts) =
          graphSection (retrieveFromKnowledgeGraph drv getFacts))
    ∧ ((retrieveFromKnowledgeGraph drv getFacts).count = 0 →
        combineContextParts (retrieveFromVectorStore search)
            (retrieveFromKnowledgeGraph drv getFacts) =
          vectorSection (retrieveFromVectorStore search)) := by
  obtain ⟨srcs, hsrcs⟩ := prepareSources_ok_of_wf
    (retrieveFromVectorStore search) (retrieveFromKnowledgeGraph drv getFacts) hwf
  refine ⟨?_, ?_, ?_, ?_, ?_⟩
  · unfold queryRun
    rw [hsrcs]
    rfl
  · intro e he
    rw [he]
    rfl
  · intro e he
    unfold retrieveFromKnowledgeGraph
    by_cases hd : drv <;> simp [hd, he]
  · intro hv
    unfold combineContextParts vectorSection
    rw [if_neg (by omega : ¬ (retrieveFromVectorStore search).count > 0)]
    rfl
  · intro hg
    unfold combineContextParts graphSection
    rw [if_neg (by omega : ¬ (retrieveFromKnowledgeGraph drv getFacts).count > 0)]
    simp

/-- Witness for C5 (amended) at a concrete input: the vector search
raises, the graph query returns one well-formed fact. -/
theorem retrieval_graceful_degradation_witness :
    (∀ f ∈ (retrieveFromKnowledgeGraph true (.ok [⟨some "n", some "r", none⟩])).results,
        f.relationship.isSome)
    ∧ (((queryRun ⟨"q", 5, none, .general⟩ (.error ()) true
          (.ok [⟨some "n", some "r", none⟩]) (fun _ => .ok "a")).snd).isOk = true
      ∧ (∀ e, (.error () : Except Unit SearchResults) = .error e →
          (retrieveFromVectorStore (.error ())).count = 0)
      ∧ (∀ e, (.ok [(⟨some "n", some "r", none⟩ : GraphFact)] :
            Except Unit (List GraphFact)) = .error e →
          (retrieveFromKnowledgeGraph true (.ok [⟨some "n", some "r", none⟩])).count = 0)
      ∧ ((retrieveFromVectorStore (.error ())).count = 0 →
          combineContextParts (retrieveFromVectorStore (.error ()))
              (retrieveFromKnowledgeGraph true (.ok [⟨some "n", some "r", none⟩])) =
            graphSection (retrieveFromKnowledgeGraph true (.ok [⟨some "n", some "r", none⟩])))
      ∧ ((retrieveFromKnowledgeGraph true (.ok [⟨some "n", some "r", none⟩])).count = 0 →
          combineContextParts (retrieveFromVectorStore (.error ()))
              (retrieveFromKnowledgeGraph true (.ok [⟨some "n", some "r", none⟩])) =
            vectorSection (retrieveFromVectorStore (.error ())))) :=
  ⟨by intro f hf; cases List.mem_singleton.mp hf; rfl,
   retrieval_graceful_degradation ⟨"q", 5, none, .general⟩ (.error ()) true
     (.ok [⟨some "n", some "r", none⟩]) (fun _ => .ok "a")
     (by intro f hf; cases List.mem_singleton.mp hf; rfl)⟩

/-- Counterexample to C6 as stated: the code's query trace does not issue
the two retrievals fan-out — the graph query call event does not precede
the vector search return event (retrieval is sequential, not concurrent). -/
theorem query_trace_not_fanout :
    ¬ fanOutFanIn (queryRun ⟨"q", 5, none, .general⟩ (.ok ⟨[], [], []⟩) false
        (.ok []) (fun _ => .ok "a")).fst := by
  decide

/-- **C6** (amended). For every query run, the two retrievals are issued
sequentially — the vector search returns before the graph query is issued —
and both retrievals complete before context fusion; the generation call
is issued only after fusion completes (synthesis is not pipelined with
retrieval). -/
theorem query_sequential_retrieval (req : QueryRequest)
    (search : Except Unit SearchResults) (drv : Bool)
    (getFacts : Except Unit (List GraphFact))
    (llm : String → Except Unit String) :
    (queryRun req search drv getFacts llm).fst = queryEvents
    ∧ queryEvents.indexOf QueryEvent.vectorSearchReturn <
        queryEvents.indexOf QueryEvent.graphQueryCall
    ∧ queryEvents.indexOf QueryEvent.graphQueryReturn <
        queryEvents.indexOf QueryEvent.fusionDone
    ∧ queryEvents.indexOf QueryEvent.fusionDone <
        queryEvents.indexOf QueryEvent.generateCall := by
  refine ⟨?_, by decide, by decide, by decide⟩
  unfold queryRun
  cases prepareSources (retrieveFromVectorStore search)
      (retrieveFromKnowledgeGraph drv getFacts) <;> rfl

/-- Counterexample to C8 as stated: at a concrete query whose generation
call fails AND whose retrieval returned a graph fact without a
relationship (as Neo4j's OPTIONAL MATCH yields for an isolated matching
node), `_prepare_sources` raises after the fallback answer was computed
and the query as a whole fails — it does not "still succeed". -/
theorem generation_failure_query_still_fails :
    (queryRun ⟨"q", 5, none, .general⟩ (.ok ⟨[], [], []⟩) true
        (.ok [⟨some "n", none, none⟩]) (fun _ => .error ())).snd =
      .error () := by
  rfl

/-- **C8** (amended). For every query in which the generation call fails
and every retrieved graph fact carries a relationship (so that source
preparation succeeds), the response still comes back successfully, its
answer is the fixed apologetic fallback string, and its confidence is
exactly the value computed from the retrieval signals — the same
confidence any successful-generation run of the same retrieval reports;
when a retrieved fact lacks a relationship, the query fails in source
preparation regardless of the generation outcome. -/
theorem generation_failure_fallback (req : QueryRequest)
    (search : Except Unit SearchResults) (drv : Bool)
    (getFacts : Except Unit (List GraphFact))
    (hwf : ∀ f ∈ (retrieveFromKnowledgeGraph drv getFacts).results,
        f.relationship.isSome) :
    ∃ resp, (queryRun req search drv getFacts (fun _ => .error ())).snd = .ok resp
      ∧ resp.answer = fallbackAnswer
      ∧ resp.confidence = calculateConfidence (retrieveFromVectorStore search)
          (retrieveFromKnowledgeGraph drv getFacts)
      ∧ ∀ (llm : String → Except Unit String) (resp2 : QueryResponse),
          (queryRun req search drv getFacts llm).snd = .ok resp2 →
          resp2.confidence = resp.confidence := by
  obtain ⟨srcs, hsrcs⟩ := prepareSources_ok_of_wf
    (retrieveFromVectorStore search) (retrieveFromKnowledgeGraph drv getFacts) hwf
  refine ⟨⟨fallbackAnswer,
      calculateConfidence (retrieveFromVectorStore search)
        (retrieveFromKnowledgeGraph drv getFacts),
      srcs, req.query_type⟩, ?_, rfl, rfl, ?_⟩
  · unfold queryRun
    rw [hsrcs]
    rfl
  · intro llm resp2 h2
    unfold queryRun at h2
    rw [hsrcs] at h2
    injection h2 with h2
    rw [← h2]

/-- Witness for C8 at a concrete input: empty vector search results, one
well-formed graph fact, generation failing. -/
theorem generation_failure_fallback_witness :
    (∀ f ∈ (retrieveFromKnowledgeGraph true (.ok [⟨some "n", some "r", none⟩])).results,
        f.relationship.isSome)
    ∧ ∃ resp, (queryRun ⟨"q", 5, none, .general⟩ (.ok ⟨[], [], []⟩) true
          (.ok [⟨some "n", some "r", none⟩]) (fun _ => .error ())).snd = .ok resp
        ∧ resp.answer = fallbackAnswer
        ∧ resp.confidence = calculateConfidence
            (retrieveFromVectorStore (.ok ⟨[], [], []⟩))
            (retrieveFromKnowledgeGraph true (.ok [⟨some "n", some "r", none⟩]))
        ∧ ∀ (llm : String → Except Unit String) (resp2 : QueryResponse),
            (queryRun ⟨"q", 5, none, .general⟩ (.ok ⟨[], [], []⟩) true
              (.ok [⟨some "n", some "r", none⟩]) llm).snd = .ok resp2 →
            resp2.confidence = resp.confidence :=
  ⟨by intro f hf; cases List.mem_singleton.mp hf; rfl,
   generation_failure_fallback ⟨"q", 5, none, .general⟩ (.ok ⟨[], [], []⟩) true
     (.ok [⟨some "n", some "r", none⟩])
     (by intro f hf; cases List.mem_singleton.mp hf; rfl)⟩

/-- `update_one` keyed on `_id` rewrites the record `find_one` sees,
provided the update preserves the key. -/
lemma find?_updateOne (docs : List DocumentRecord) (id : String)
    (f : DocumentRecord → DocumentRecord) (hf : ∀ d, (f d).id = d.id) :
    (updateOne docs id f).find? (fun d => d.id == id) =
      (docs.find? (fun d => d.id == id)).map f := by
  induction docs with
  | nil => rfl
  | cons d ds ih =>
    unfold updateOne
    by_cases h : d.id = id
    · rw [if_pos (by simp [h])]
      rw [List.find?_cons_of_pos _ (by simp [hf, h]),
        List.find?_cons_of_pos _ (by simp [h])]
      rfl
    · rw [if_neg (by simp [h])]
      rw [List.find?_cons_of_neg _ (by simp [h]),
        List.find?_cons_of_neg _ (by simp [h]), ih]

/-- The record update of `applyStatusUpdate` preserves the `_id` key. -/
lemma applyStatusUpdate_id (s : DocumentStatus) (cc : Option Nat) (now : Nat)
    (d : DocumentRecord) : (applyStatusUpdate s cc now d).id = d.id := by
  unfold applyStatusUpdate
  cases s <;> cases cc <;> simp

/-- `applyStatusUpdate` always installs the requested status. -/
lemma applyStatusUpdate_status (s : DocumentStatus) (cc : Option Nat)
    (now : Nat) (d : DocumentRecord) :
    (applyStatusUpdate s cc now d).status = s := by
  unfold applyStatusUpdate
  cases s <;> cases cc <;> simp

/-- What `get_document` sees after `update_document_status`. -/
lemma getDocument_updateDocumentStatus (db : MongoDB) (id : String)
    (s : DocumentStatus) (cc : Option Nat) (now : Nat) :
    getDocument (updateDocumentStatus db id s cc now) id =
      (getDocument db id).map (applyStatusUpdate s cc now) :=
  find?_updateOne db.documents id _ (applyStatusUpdate_id s cc now)

/-- Every event the embedding loop emits is an embed call. -/
lemma runBatchesTr_events_embedCall
    (embed : List String → Except Unit (List (List ℚ))) :
    ∀ (bs : List (List String)), ∀ ev ∈ (runBatchesTr embed bs).fst,
      ∃ m, ev = IngestEvent.embedCall m := by
  intro bs
  induction bs with
  | nil => intro ev hev; simp [runBatchesTr] at hev
  | cons b bs ih =>
    intro ev hev
    unfold runBatchesTr at hev
    cases hb : embed b with
    | error e =>
      rw [hb] at hev
      simp at hev
      exact ⟨b.length, hev⟩
    | ok emb =>
      rw [hb] at hev
      rcases hrest : runBatchesTr embed bs with ⟨evs, res⟩
      rw [hrest] at hev
      cases res with
      | error e =>
        rcases List.mem_cons.mp hev with rfl | hmem
        · exact ⟨b.length, rfl⟩
        · exact ih ev (by rw [hrest]; exact hmem)
      | ok rest =>
        rcases List.mem_cons.mp hev with rfl | hmem
        · exact ⟨b.length, rfl⟩
        · exact ih ev (by rw [hrest]; exact hmem)

/-- With a pointwise embedding capability that answers every batch, the
loop issues one call per batch, in order, and returns the concatenation of
the per-batch vectors — aligned one-to-one with the flattened inputs. -/
lemma runBatchesTr_ok (embed : List String → Except Unit (List (List ℚ)))
    (f : String → List ℚ) (hembed : ∀ b, embed b = .ok (b.map f)) :
    ∀ bs : List (List String),
      runBatchesTr embed bs =
        (bs.map (fun b => IngestEvent.embedCall b.length),
         .ok (bs.flatten.map f)) := by
  intro bs
  induction bs with
  | nil => rfl
  | cons b bs ih =>
    unfold runBatchesTr
    rw [hembed b, ih]
    simp

/-- Batch count of the worker: `ceil(N / B)` whenever the fuel suffices. -/
lemma batchesOfAux_length (B : ℕ+) :
    ∀ (fuel : Nat) (texts : List String), texts.length ≤ fuel →
      (batchesOfAux B fuel texts).length = (texts.length + B - 1) / B := by
  intro fuel
  induction fuel with
  | zero =>
    intro texts h
    have hx : texts = [] := List.eq_nil_of_length_eq_zero (Nat.le_zero.mp h)
    subst hx
    have hB : 0 < (B : Nat) := B.pos
    simp [batchesOfAux]
    symm
    apply Nat.div_eq_of_lt
    omega
  | succ n ih =>
    intro texts h
    have hB : 0 < (B : Nat) := B.pos
    cases texts with
    | nil =>
      simp [batchesOfAux]
      symm
      apply Nat.div_eq_of_lt
      omega
    | cons t ts =>
      unfold batchesOfAux
      simp only [List.length_cons, List.length_drop]
      rw [ih _ (by simp [List.length_drop] at h ⊢; omega)]
      simp only [List.length_cons, List.length_drop]
      rcases le_or_lt (ts.length + 1) (B : Nat) with hle | hlt
      · have h1 : ts.length + 1 - (B : Nat) = 0 := by omega
        rw [h1]
        rw [Nat.div_eq_of_lt (by omega)]
        symm
        apply Nat.div_eq_of_lt_le (by omega) (by omega)
      · have h2 : ts.length + 1 - (B : Nat) + (B : Nat) - 1 = ts.length := by omega
        have h3 : ts.length + 1 + (B : Nat) - 1 = ts.length + (B : Nat) := by omega
        rw [h2, h3, Nat.add_div_right _ hB]

/-- The batch partition has exactly `ceil(N / B)` batches. -/
lemma batchesOf_length (B : ℕ+) (texts : List String) :
    (batchesOf B texts).length = (texts.length + B - 1) / B :=
  batchesOfAux_length B texts.length texts le_rfl

/-- Flattening the worker's partition recovers the input in order. -/
lemma batchesOfAux_flatten (B : ℕ+) :
    ∀ (fuel : Nat) (texts : List String), texts.length ≤ fuel →
      (batchesOfAux B fuel texts).flatten = texts := by
  intro fuel
  induction fuel with
  | zero =>
    intro texts h
    have hx : texts = [] := List.eq_nil_of_length_eq_zero (Nat.le_zero.mp h)
    subst hx
    rfl
  | succ n ih =>
    intro texts h
    have hB : 0 < (B : Nat) := B.pos
    cases texts with
    | nil => rfl
    | cons t ts =>
      unfold batchesOfAux
      rw [List.flatten_cons, ih _ (by simp [List.length_drop] at h ⊢; omega)]
      exact List.take_append_drop _ _

/-- The batch partition preserves the inputs and their order. -/
lemma batchesOf_flatten (B : ℕ+) (texts : List String) :
    (batchesOf B texts).flatten = texts :=
  batchesOfAux_flatten B texts.length texts le_rfl

/-- Counterexample to C2 as stated: `update_document_status` has no
terminal-state guard — calling it with PROCESSING on a document whose
status is COMPLETED moves the status away from the terminal state. -/
theorem completed_status_overwritten :
    (getDocument (updateDocumentStatus dbDone "doc1" .processing none 6)
        "doc1").map DocumentRecord.status = some .processing := by
  rfl

/-- **C2** (amended). `update_document_status` applies the requested
status unconditionally, so a later call can change even a COMPLETED or
FAILED status (no terminal-state guard); entering COMPLETED sets
`processed_at` to the update time and `chunks_count` to the passed final
count; entering FAILED (called without a count) leaves `processed_at` and
`chunks_count` unchanged — unset if never completed; and within any single
`process_document` run the status updates are exactly
PROCESSING-then-COMPLETED or PROCESSING-then-FAILED. -/
theorem status_update_lifecycle (db : MongoDB) (id : String) (now : Nat)
    (d : DocumentRecord) (hd : getDocument db id = some d) :
    (∀ c, getDocument (updateDocumentStatus db id .completed (some c) now) id =
        some { d with status := .completed, updated_at := now,
                      processed_at := some now, chunks_count := c })
    ∧ (getDocument (updateDocumentStatus db id .failed none now) id =
        some { d with status := .failed, updated_at := now })
    ∧ (∀ s cc, (getDocument (updateDocumentStatus db id s cc now) id).map
        DocumentRecord.status = some s)
    ∧ (∀ (docId : String) (splitDocs : List SplitDoc) (batchSize : ℕ+)
        (embed : List String → Except Unit (List (List ℚ))) (now2 : Nat)
        (st : SysState),
        statusEvents (processDocument docId splitDocs batchSize embed now2 st).2.1 =
            [DocumentStatus.processing, DocumentStatus.completed]
          ∨ statusEvents (processDocument docId splitDocs batchSize embed now2 st).2.1 =
            [DocumentStatus.processing, DocumentStatus.failed]) := by
  refine ⟨?_, ?_, ?_, ?_⟩
  · intro c
    rw [getDocument_updateDocumentStatus, hd]
    rfl
  · rw [getDocument_updateDocumentStatus, hd]
    rfl
  · intro s cc
    rw [getDocument_updateDocumentStatus, hd]
    simp [applyStatusUpdate_status]
  · intro docId splitDocs batchSize embed now2 st
    by_cases hne : splitDocs.isEmpty
    · right
      unfold processDocument
      rw [if_pos hne]
      rfl
    · have hevs := runBatchesTr_events_embedCall embed
        (batchesOf batchSize (chunkContentsOf splitDocs))
      rcases hrb : runBatchesTr embed (batchesOf batchSize (chunkContentsOf splitDocs))
        with ⟨batchEvs, res⟩
      rw [hrb] at hevs
      have hnilb : statusEvents batchEvs = [] := by
        unfold statusEvents
        rw [List.filterMap_eq_nil_iff]
        intro ev hev
        obtain ⟨m, rfl⟩ := hevs ev hev
        rfl
      cases res with
      | error e =>
        right
        unfold processDocument
        rw [if_neg hne, hrb]
        unfold statusEvents at hnilb ⊢
        rw [List.filterMap_cons, List.filterMap_cons, List.filterMap_append, hnilb]
        rfl
      | ok embs =>
        left
        unfold processDocument
        rw [if_neg hne, hrb]
        unfold statusEvents at hnilb ⊢
        rw [List.filterMap_cons, List.filterMap_cons, List.filterMap_append, hnilb]
        rfl

/-- Witness for C2 (amended) at a concrete database holding one freshly
uploaded document. -/
theorem status_update_lifecycle_witness :
    getDocument db0 "doc1" = some doc0
    ∧ ((∀ c, getDocument (updateDocumentStatus db0 "doc1" .completed (some c) 3) "doc1" =
          some { doc0 with status := .completed, updated_at := 3, processed_at := some 3, chunks_count := c })
      ∧ (getDocument (updateDocumentStatus db0 "doc1" .failed none 3) "doc1" =
          some { doc0 with status := .failed, updated_at := 3 })
      ∧ (∀ s cc, (getDocument (updateDocumentStatus db0 "doc1" s cc 3) "doc1").map
          DocumentRecord.status = some s)
      ∧ (∀ (docId : String) (splitDocs : List SplitDoc) (batchSize : ℕ+)
          (embed : List String → Except Unit (List (List ℚ))) (now2 : Nat)
          (st : SysState),
          statusEvents (processDocument docId splitDocs batchSize embed now2 st).2.1 =
              [DocumentStatus.processing, DocumentStatus.completed]
            ∨ statusEvents (processDocument docId splitDocs batchSize embed now2 st).2.1 =
              [DocumentStatus.processing, DocumentStatus.failed])) :=
  ⟨rfl, status_update_lifecycle db0 "doc1" 3 doc0 rfl⟩

/-- **C9.** Every `ChromaClient.connect` deletes any existing `documents`
collection (swallowing the not-found error) and installs a fresh empty
one: immediately afterwards the collection exists and holds zero entries,
so no entry added before the connect is still present. -/
theorem connect_resets_documents_collection (store : ChromaStore) :
    getCollection (chromaConnect store) "documents" = some []
    ∧ (∀ (e : ChromaEntry) (entries : List ChromaEntry),
        getCollection (chromaConnect store) "documents" = some entries →
          e ∉ entries) := by
  refine ⟨rfl, ?_⟩
  intro e entries h
  have h0 : getCollection (chromaConnect store) "documents" = some [] := rfl
  rw [h0] at h
  injection h with h
  subst h
  simp

/-- Witness for C9 at a store whose `documents` collection already holds a
vector entry: after connect the collection is empty. -/
theorem connect_resets_documents_collection_witness :
    getCollection (chromaConnect storeOne) "documents" = some []
    ∧ (∀ (e : ChromaEntry) (entries : List ChromaEntry),
        getCollection (chromaConnect storeOne) "documents" = some entries →
          e ∉ entries) :=
  connect_resets_documents_collection storeOne

/-- `create_chunks` does not touch the `documents` collection. -/
lemma getDocument_createChunks (db : MongoDB) (rows : List ChunkRecord)
    (id : String) : getDocument (createChunks db rows) id = getDocument db id :=
  rfl

/-- **C3.** The embedding step partitions the N chunk texts into exactly
`ceil(N / B)` batches whose concatenation is the input in order; one embed
call is issued per batch, sequentially in input order, and with a
per-text embedding capability the concatenated output vectors are exactly
the inputs mapped — aligned 1:1; and if any batch fails, the run aborts
with that error, the document is marked FAILED, and zero vectors are
committed to the vector index. -/
theorem embedding_batching (document_id : String) (splitDocs : List SplitDoc)
    (batchSize : ℕ+) (embed : List String → Except Unit (List (List ℚ)))
    (now : Nat) (st : SysState) :
    (batchesOf batchSize (chunkContentsOf splitDocs)).length =
        ((chunkContentsOf splitDocs).length + batchSize - 1) / batchSize
    ∧ (batchesOf batchSize (chunkContentsOf splitDocs)).flatten =
        chunkContentsOf splitDocs
    ∧ (∀ f : String → List ℚ, (∀ b, embed b = .ok (b.map f)) →
        runBatchesTr embed (batchesOf batchSize (chunkContentsOf splitDocs)) =
          ((batchesOf batchSize (chunkContentsOf splitDocs)).map
              (fun b => IngestEvent.embedCall b.length),
           .ok ((chunkContentsOf splitDocs).map f)))
    ∧ (∀ e, (runBatchesTr embed
          (batchesOf batchSize (chunkContentsOf splitDocs))).snd = .error e →
        (processDocument document_id splitDocs batchSize embed now st).1.chroma =
            st.chroma
        ∧ (processDocument document_id splitDocs batchSize embed now st).2.2 =
            .error e
        ∧ (getDocument
            (processDocument document_id splitDocs batchSize embed now st).1.db
            document_id).map DocumentRecord.status =
          (getDocument st.db document_id).map
            (fun _ => DocumentStatus.failed)) := by
  refine ⟨batchesOf_length _ _, batchesOf_flatten _ _, ?_, ?_⟩
  · intro f hf
    rw [runBatchesTr_ok embed f hf, batchesOf_flatten]
  · intro e he
    by_cases hne : splitDocs.isEmpty
    · have hx : splitDocs = [] := List.isEmpty_iff.mp hne
      subst hx
      rw [show runBatchesTr embed (batchesOf batchSize (chunkContentsOf [])) =
          ([], .ok []) from rfl] at he
      exact absurd he (by simp)
    · rcases hrb : runBatchesTr embed (batchesOf batchSize (chunkContentsOf splitDocs))
        with ⟨batchEvs, res⟩
      rw [hrb] at he
      cases res with
      | ok embs => exact absurd he (by simp)
      | error e0 =>
        have he0 : e0 = e := by injection he
        subst he0
        unfold processDocument
        rw [if_neg hne, hrb]
        refine ⟨rfl, rfl, ?_⟩
        rw [getDocument_updateDocumentStatus, getDocument_createChunks,
          getDocument_updateDocumentStatus]
        cases getDocument st.db document_id with
        | none => rfl
        | some d => simp [applyStatusUpdate_status]

set_option maxRecDepth 10000 in
/-- Witness for C3 at the spec's own example scale: 300 one-character
texts with batch size 128 (3 batches of 128, 128, 44), a per-text
capability for the success half, and a failing capability for the failure
half. -/
theorem embedding_batching_witness :
    ((batchesOf 128 (chunkContentsOf (List.replicate 300 ⟨"x", 1, "f"⟩))).length =
        ((chunkContentsOf (List.replicate 300 ⟨"x", 1, "f"⟩)).length + 128 - 1) / 128
      ∧ (batchesOf 128 (chunkContentsOf (List.replicate 300 ⟨"x", 1, "f"⟩))).flatten =
          chunkContentsOf (List.replicate 300 ⟨"x", 1, "f"⟩)
      ∧ (∀ f : String → List ℚ, (∀ b, embed0 b = .ok (b.map f)) →
          runBatchesTr embed0 (batchesOf 128 (chunkContentsOf (List.replicate 300 ⟨"x", 1, "f"⟩))) =
            ((batchesOf 128 (chunkContentsOf (List.replicate 300 ⟨"x", 1, "f"⟩))).map
                (fun b => IngestEvent.embedCall b.length),
             .ok ((chunkContentsOf (List.replicate 300 ⟨"x", 1, "f"⟩)).map f)))
      ∧ (∀ e, (runBatchesTr embed0
            (batchesOf 128 (chunkContentsOf (List.replicate 300 ⟨"x", 1, "f"⟩)))).snd = .error e →
          (processDocument "d" (List.replicate 300 ⟨"x", 1, "f"⟩) 128 embed0 0 st0).1.chroma =
              st0.chroma
          ∧ (processDocument "d" (List.replicate 300 ⟨"x", 1, "f"⟩) 128 embed0 0 st0).2.2 =
              .error e
          ∧ (getDocument
              (processDocument "d" (List.replicate 300 ⟨"x", 1, "f"⟩) 128 embed0 0 st0).1.db
              "d").map DocumentRecord.status =
            (getDocument st0.db "d").map (fun _ => DocumentStatus.failed)))
    ∧ (batchesOf 128 (chunkContentsOf (List.replicate 300 ⟨"x", 1, "f"⟩))).map
        List.length = [128, 128, 44] :=
  ⟨embedding_batching "d" (List.replicate 300 ⟨"x", 1, "f"⟩) 128 embed0 0 st0,
   by rfl⟩

/-- Counterexample to C4 as stated: reprocessing document `"d"` on the
same input (both runs fully successful) leaves two chunk records carrying
the id `"d_chunk_0"` in the record store — `insert_many` appended a
duplicate row under a fresh Mongo `_id` instead of overwriting the same
storage slot. -/
theorem reprocessing_appends_duplicate_rows :
    (((processDocument "d" splitDocs0 128 embed0 1
          (processDocument "d" splitDocs0 128 embed0 0 st0).1).1).db.chunks.filter
        (fun c => c.chunk_id == "d_chunk_0")).length = 2 := by
  rfl

/-- **C4** (amended). Reprocessing is deterministic in ids and contents:
each run derives chunk ids `"{document_id}_chunk_{index}"` for indices
`0..N-1` with contents exactly the split contents, so a rerun on the same
input reproduces the first run's ids, contents, and count; but a
successful run APPENDS its chunk rows to the record store (`insert_many`,
fresh Mongo ids, no unique index on `chunk_id`) rather than overwriting
entries already stored under the same chunk ids. -/
theorem reprocessing_deterministic_but_appending (document_id : String)
    (splitDocs : List SplitDoc) (batchSize : ℕ+)
    (embed : List String → Except Unit (List (List ℚ))) (now : Nat)
    (st : SysState) (hne : ¬ splitDocs.isEmpty = true)
    (embs : List (List ℚ))
    (hok : (runBatchesTr embed
        (batchesOf batchSize (chunkContentsOf splitDocs))).snd = .ok embs) :
    chunkIdsOf document_id splitDocs =
        (List.range splitDocs.length).map
          (fun i => document_id ++ "_chunk_" ++ toString i)
    ∧ chunkContentsOf splitDocs = splitDocs.map SplitDoc.page_content
    ∧ (chunkRowsOf document_id splitDocs now).map ChunkRecord.chunk_id =
        chunkIdsOf document_id splitDocs
    ∧ (processDocument document_id splitDocs batchSize embed now st).1.db.chunks =
        st.db.chunks ++ chunkRowsOf document_id splitDocs now := by
  refine ⟨rfl, rfl, ?_, ?_⟩
  · unfold chunkRowsOf chunkIdsOf
    rw [List.map_map]
    rw [show ((List.range splitDocs.length).map (chunkIdOf document_id)) =
        (splitDocs.enum.map Prod.fst).map (chunkIdOf document_id) by
      rw [List.enum_map_fst]]
    rw [List.map_map]
    rfl
  · unfold processDocument
    rw [if_neg hne]
    rcases hrb : runBatchesTr embed (batchesOf batchSize (chunkContentsOf splitDocs))
      with ⟨batchEvs, res⟩
    rw [hrb] at hok
    cases res with
    | error e => exact absurd hok (by simp)
    | ok embs2 => rfl

/-- Witness for C4 (amended) at the concrete one-chunk document. -/
theorem reprocessing_deterministic_but_appending_witness :
    (¬ splitDocs0.isEmpty = true)
    ∧ ((runBatchesTr embed0 (batchesOf 128 (chunkContentsOf splitDocs0))).snd =
        .ok [[0]])
    ∧ (chunkIdsOf "d" splitDocs0 =
          (List.range splitDocs0.length).map
            (fun i => "d" ++ "_chunk_" ++ toString i)
      ∧ chunkContentsOf splitDocs0 = splitDocs0.map SplitDoc.page_content
      ∧ (chunkRowsOf "d" splitDocs0 5).map ChunkRecord.chunk_id =
          chunkIdsOf "d" splitDocs0
      ∧ (processDocument "d" splitDocs0 128 embed0 5 st0).1.db.chunks =
          st0.db.chunks ++ chunkRowsOf "d" splitDocs0 5) :=
  ⟨by decide, by rfl,
   reprocessing_deterministic_but_appending "d" splitDocs0 128 embed0 5 st0
     (by decide) [[0]] (by rfl)⟩

/-- **C7.** In every ingestion run, the single chunk-record insert
precedes every embedding call in the event trace; consequently, when the
embedding step fails, the chunk records written in that run remain present
in the record store while the vector index is untouched (the write is
non-atomic) and the error re-raises. -/
theorem chunk_rows_precede_embedding (document_id : String)
    (splitDocs : List SplitDoc) (batchSize : ℕ+)
    (embed : List String → Except Unit (List (List ℚ))) (now : Nat)
    (st : SysState) (hne : ¬ splitDocs.isEmpty = true) :
    (∃ batchEvs tailEvs,
        (processDocument document_id splitDocs batchSize embed now st).2.1 =
          IngestEvent.statusUpdate .processing ::
            IngestEvent.chunksInsert (chunkRowsOf document_id splitDocs now).length ::
            (batchEvs ++ tailEvs)
        ∧ (∀ ev ∈ batchEvs, ∃ m, ev = IngestEvent.embedCall m)
        ∧ (∀ ev ∈ tailEvs, ∀ m, ev ≠ IngestEvent.embedCall m))
    ∧ (∀ e, (runBatchesTr embed
          (batchesOf batchSize (chunkContentsOf splitDocs))).snd = .error e →
        (processDocument document_id splitDocs batchSize embed now st).1.db.chunks =
            st.db.chunks ++ chunkRowsOf document_id splitDocs now
        ∧ (processDocument document_id splitDocs batchSize embed now st).1.chroma =
            st.chroma
        ∧ (processDocument document_id splitDocs batchSize embed now st).2.2 =
            .error e) := by
  have hevs := runBatchesTr_events_embedCall embed
    (batchesOf batchSize (chunkContentsOf splitDocs))
  rcases hrb : runBatchesTr embed (batchesOf batchSize (chunkContentsOf splitDocs))
    with ⟨batchEvs, res⟩
  rw [hrb] at hevs
  cases res with
  | error e0 =>
    constructor
    · refine ⟨batchEvs, [IngestEvent.statusUpdate .failed], ?_, hevs, ?_⟩
      · unfold processDocument
        rw [if_neg hne, hrb]
      · intro ev hev m
        rw [List.mem_singleton.mp hev]
        simp
    · intro e he
      cases e0
      cases e
      unfold processDocument
      rw [if_neg hne, hrb]
      exact ⟨rfl, rfl, rfl⟩
  | ok embs =>
    constructor
    · refine ⟨batchEvs,
        [IngestEvent.chromaAdd (chromaEntriesOf document_id splitDocs now embs).length,
         IngestEvent.statusUpdate .completed], ?_, hevs, ?_⟩
      · unfold processDocument
        rw [if_neg hne, hrb]
      · intro ev hev m
        rcases List.mem_cons.mp hev with rfl | hev
        · simp
        · rw [List.mem_singleton.mp hev]
          simp
    · intro e he
      exact absurd he (by simp)

/-- Witness for C7 at the concrete one-chunk document with an embedding
capability whose only batch raises. -/
theorem chunk_rows_precede_embedding_witness :
    (¬ splitDocs0.isEmpty = true)
    ∧ ((∃ batchEvs tailEvs,
          (processDocument "d" splitDocs0 128 embedFail 0 st0).2.1 =
            IngestEvent.statusUpdate .processing ::
              IngestEvent.chunksInsert (chunkRowsOf "d" splitDocs0 0).length ::
              (batchEvs ++ tailEvs)
          ∧ (∀ ev ∈ batchEvs, ∃ m, ev = IngestEvent.embedCall m)
          ∧ (∀ ev ∈ tailEvs, ∀ m, ev ≠ IngestEvent.embedCall m))
      ∧ (∀ e, (runBatchesTr embedFail
            (batchesOf 128 (chunkContentsOf splitDocs0))).snd = .error e →
          (processDocument "d" splitDocs0 128 embedFail 0 st0).1.db.chunks =
              st0.db.chunks ++ chunkRowsOf "d" splitDocs0 0
          ∧ (processDocument "d" splitDocs0 128 embedFail 0 st0).1.chroma =
              st0.chroma
          ∧ (processDocument "d" splitDocs0 128 embedFail 0 st0).2.2 =
              .error e)) :=
  ⟨by decide,
   chunk_rows_precede_embedding "d" splitDocs0 128 embedFail 0 st0 (by decide)⟩

end ARAI
